import Mathlib

/-!
Verification of the shape / packing core in `Shapes.py`.

Shallow embedding conventions:
* Python floats are modelled as exact rationals (`ℚ`); the claims are about
  the exact arithmetic the source expresses, not about rounding.
* `Circle` extends `Ellipse` in the source; here a circle is an `Ellipse`
  record built by `Circle.make` (which, like `Circle.__init__`, passes the
  radius for both axes) and `Circle.radius` is the getter returning
  `short_axis`, exactly as the `radius` property does.
* A Python function that can raise is embedded with an explicit result type
  carrying one constructor per exception the function can actually raise.
* `math.sqrt` comparisons are embedded sqrt-free: for `d2 ≥ 0` (a sum of
  squares), `sqrt d2 > s` holds iff `s < 0 ∨ s^2 < d2`, and
  `sqrt d2 ≤ t` for `t ≥ 0` iff `d2 ≤ t^2`; the bridging to real Euclidean
  distance is proved, not assumed, in the intersection theorems.
* `random.uniform(a, b)` is `a + (b-a)*random()` in CPython; it is embedded
  as a function of the sample `u = random() ∈ [0,1)` drawn by the generator.
-/

/-- The `Ellipse` class: `material`, `centre`, `short_axis`, `long_axis`,
`angle`, as set by `Ellipse.__init__`.  A `Circle` instance is an `Ellipse`
whose two axes were set to the same radius. -/
structure Ellipse where
  material : String
  centre : ℚ × ℚ
  short_axis : ℚ
  long_axis : ℚ
  angle : ℚ
deriving DecidableEq, Repr

/-- `Circle.__init__(material, centre, radius)` calls the `Ellipse`
constructor with `short_axis = long_axis = radius` (and the default
`angle = 0`). -/
def Circle.make (material : String) (centre : ℚ × ℚ) (radius : ℚ) : Ellipse :=
  { material := material, centre := centre,
    short_axis := radius, long_axis := radius, angle := 0 }

/-- The `radius` property getter: `return self.short_axis`. -/
def Circle.radius (c : Ellipse) : ℚ := c.short_axis

/-- The `radius` property setter: assigns `value` to both `short_axis` and
`long_axis`. -/
def Circle.setRadius (c : Ellipse) (value : ℚ) : Ellipse :=
  { c with short_axis := value, long_axis := value }

/-- Result of `Circle.determine_max_radius`: it can raise `ArithmeticError`
(the capacity failure) at the explicit guard, raise `ZeroDivisionError`
when `numcircles = 0` reaches the division, or return a float. -/
inductive DMRResult where
  | capacityError : DMRResult
  | zeroDivisionError : DMRResult
  | ok : ℚ → DMRResult
deriving DecidableEq, Repr

/-- `Circle.determine_max_radius(buffersize, numcircles, scalefactor)`:
raises when `buffersize*2 + (numcircles-1)*buffersize > 1`, otherwise
returns `(((1 - buffersize - buffersize*numcircles) / numcircles) / 2) *
scalefactor`.  The division by `numcircles` raises `ZeroDivisionError` in
Python when `numcircles = 0`, so that case gets its own constructor. -/
def determine_max_radius (buffersize numcircles scalefactor : ℚ) : DMRResult :=
  if buffersize * 2 + (numcircles - 1) * buffersize > 1 then
    DMRResult.capacityError
  else if numcircles = 0 then
    DMRResult.zeroDivisionError
  else
    DMRResult.ok ((((1 - buffersize - buffersize * numcircles) / numcircles) / 2) * scalefactor)

/-- `Circle.determine_radius(max_radius, equalsize)` with the uniform
sample `u` made explicit: `uniform(0.01, max_radius)` in CPython returns
`0.01 + (max_radius - 0.01) * u` for a sample `u ∈ [0,1)`. -/
def determine_radius (max_radius : ℚ) (equalsize : Bool) (u : ℚ) : ℚ :=
  if equalsize then max_radius
  else 1/100 + (max_radius - 1/100) * u

/-- `Circle.is_location_inside_square(buffersize)`: false when the circle
crosses the buffered container boundary in x, false when it does so in y,
true otherwise. -/
def is_location_inside_square (c : Ellipse) (buffersize : ℚ) : Bool :=
  if c.centre.1 - Circle.radius c < buffersize ∨
     c.centre.1 + Circle.radius c > 1 - buffersize then false
  else if c.centre.2 - Circle.radius c < buffersize ∨
          c.centre.2 + Circle.radius c > 1 - buffersize then false
  else true

/-- `Circle.check_intersect(circles)`: for each existing circle the source
computes `centre_distance = sqrt(dx^2 + dy^2)` and branches on
`centre_distance > r1 + r2` (continue), `centre_distance <= |r1 - r2|`
(return True), else (return True).  The sqrt comparisons are embedded
equivalently over `ℚ`: `sqrt d2 > s ↔ s < 0 ∨ s^2 < d2`, and
`sqrt d2 ≤ |r1 - r2| ↔ d2 ≤ (r1 - r2)^2`. -/
def check_intersect (c : Ellipse) : List Ellipse → Bool
  | [] => false
  | c2 :: rest =>
    let d2 := (c.centre.1 - c2.centre.1) ^ 2 + (c.centre.2 - c2.centre.2) ^ 2
    let s := Circle.radius c + Circle.radius c2
    if s < 0 ∨ s ^ 2 < d2 then
      check_intersect c rest
    else if d2 ≤ (Circle.radius c - Circle.radius c2) ^ 2 then
      true
    else
      true

/-- `Circle.perimeter_location()`: `return self.centre[0] + self.radius,
self.centre[0]` — the second component is the x coordinate again. -/
def perimeter_location (c : Ellipse) : ℚ × ℚ :=
  (c.centre.1 + Circle.radius c, c.centre.1)

/-- A point lies on the perimeter of a circle when its squared distance
from the centre equals the squared radius. -/
def onPerimeter (c : Ellipse) (p : ℚ × ℚ) : Prop :=
  (p.1 - c.centre.1) ^ 2 + (p.2 - c.centre.2) ^ 2 = (Circle.radius c) ^ 2

/-- C1 counterexample: with `buffer = 1/4`, `n = 3` we have
`buffer·(n+2) = 5/4 > 1`, yet the call does not raise: it returns `0`,
because the code's guard is `buffer·2 + (n-1)·buffer > 1`, i.e.
`buffer·(n+1) > 1`, and `(1/4)·4 = 1` is not `> 1`. -/
theorem determine_max_radius_capacity_claim_false :
    (1/4 : ℚ) * (3 + 2) > 1 ∧
    determine_max_radius (1/4) 3 1 = DMRResult.ok 0 := by
  constructor
  · norm_num
  · norm_num [determine_max_radius]

/-- C1 (amended): `determine_max_radius(buffer, n, scale)` raises
`CapacityError` exactly when `buffer·(n+1) > 1`; and whenever
`buffer·(n+1) ≤ 1` (the boundary `buffer·(n+1) = 1` included) with
`n ≠ 0`, the call does not raise and returns normally. -/
theorem determine_max_radius_capacity_iff (buffersize numcircles scalefactor : ℚ) :
    (determine_max_radius buffersize numcircles scalefactor = DMRResult.capacityError ↔
      buffersize * (numcircles + 1) > 1) ∧
    (buffersize * (numcircles + 1) ≤ 1 → numcircles ≠ 0 →
      ∃ v, determine_max_radius buffersize numcircles scalefactor = DMRResult.ok v) := by
  have hguard : buffersize * 2 + (numcircles - 1) * buffersize =
      buffersize * (numcircles + 1) := by ring
  constructor
  · constructor
    · intro h
      by_contra hc
      push_neg at hc
      unfold determine_max_radius at h
      rw [hguard] at h
      rw [if_neg (not_lt.mpr hc)] at h
      by_cases hn : numcircles = 0
      · simp [hn] at h
      · simp [hn] at h
    · intro h
      unfold determine_max_radius
      rw [hguard, if_pos h]
  · intro hle hn
    refine ⟨(((1 - buffersize - buffersize * numcircles) / numcircles) / 2) * scalefactor, ?_⟩
    unfold determine_max_radius
    rw [hguard, if_neg (not_lt.mpr hle), if_neg hn]

/-- C1 witness: at `buffer = 1/3`, `n = 2` the product `buffer·(n+1)`
equals `1` exactly, and the call returns normally. -/
theorem determine_max_radius_capacity_iff_w :
    ¬ (determine_max_radius (1/3) 2 1 = DMRResult.capacityError) ∧
    (∃ v, determine_max_radius (1/3) 2 1 = DMRResult.ok v) := by
  refine ⟨?_, (determine_max_radius_capacity_iff (1/3) 2 1).2 (by norm_num) (by norm_num)⟩
  intro h
  have := (determine_max_radius_capacity_iff (1/3) 2 1).1.mp h
  norm_num at this

/-- C3: whenever the guard does not fire and `numcircles ≠ 0`,
`determine_max_radius` returns
`(((1 - buffersize - buffersize·numcircles) / numcircles) / 2) ·
scalefactor`. -/
theorem determine_max_radius_value (buffersize numcircles scalefactor : ℚ)
    (hguard : ¬ (buffersize * 2 + (numcircles - 1) * buffersize > 1))
    (hn : numcircles ≠ 0) :
    determine_max_radius buffersize numcircles scalefactor =
      DMRResult.ok ((((1 - buffersize - buffersize * numcircles) / numcircles) / 2)
        * scalefactor) := by
  unfold determine_max_radius
  rw [if_neg hguard, if_neg hn]

/-- C3 witness: `determine_max_radius(0.05, 4, 1.0)` returns the formula
value, which equals `0.09375 = 3/32`. -/
theorem determine_max_radius_value_w :
    determine_max_radius (1/20) 4 1 =
      DMRResult.ok ((((1 - 1/20 - (1/20) * 4) / 4) / 2) * 1) ∧
    (((1 - 1/20 - (1/20 : ℚ) * 4) / 4) / 2) * 1 = 3/32 :=
  ⟨determine_max_radius_value (1/20) 4 1 (by norm_num) (by norm_num), by norm_num⟩

/-- C6 counterexample: with `scale = 0` the function is constantly `0`,
so for `buffer = 1/20`, `n₁ = 1 < n₂ = 2` neither call raises yet the
value at `n₁` is not strictly greater than the value at `n₂`. -/
theorem determine_max_radius_mono_claim_false :
    determine_max_radius (1/20) 1 0 = DMRResult.ok 0 ∧
    determine_max_radius (1/20) 2 0 = DMRResult.ok 0 ∧
    ¬ ((0 : ℚ) > 0) := by
  refine ⟨?_, ?_, by norm_num⟩
  · norm_num [determine_max_radius]
  · norm_num [determine_max_radius]

/-- C6 (amended): for a fixed buffer and a strictly positive scale,
`determine_max_radius` is strictly decreasing in the (positive) circle
count on the non-raising domain: if `0 < n₁ < n₂` and neither call
raises, the value at `n₁` is strictly greater than the value at `n₂`. -/
theorem determine_max_radius_strict_anti (buffersize n₁ n₂ scalefactor v₁ v₂ : ℚ)
    (h₁ : 0 < n₁) (h₁₂ : n₁ < n₂) (hs : 0 < scalefactor)
    (hv₁ : determine_max_radius buffersize n₁ scalefactor = DMRResult.ok v₁)
    (hv₂ : determine_max_radius buffersize n₂ scalefactor = DMRResult.ok v₂) :
    v₁ > v₂ := by
  have h₂ : 0 < n₂ := h₁.trans h₁₂
  -- extract the guard and the value from the first call
  unfold determine_max_radius at hv₁ hv₂
  by_cases hg₁ : buffersize * 2 + (n₁ - 1) * buffersize > 1
  · rw [if_pos hg₁] at hv₁; exact absurd hv₁ (by simp)
  rw [if_neg hg₁, if_neg (ne_of_gt h₁)] at hv₁
  by_cases hg₂ : buffersize * 2 + (n₂ - 1) * buffersize > 1
  · rw [if_pos hg₂] at hv₂; exact absurd hv₂ (by simp)
  rw [if_neg hg₂, if_neg (ne_of_gt h₂)] at hv₂
  have e₁ : v₁ = (((1 - buffersize - buffersize * n₁) / n₁) / 2) * scalefactor := by
    have := hv₁; injection this with h; exact h.symm
  have e₂ : v₂ = (((1 - buffersize - buffersize * n₂) / n₂) / 2) * scalefactor := by
    have := hv₂; injection this with h; exact h.symm
  -- the guard at n₁ bounds the buffer: buffersize * (n₁ + 1) ≤ 1
  push_neg at hg₁
  have hb : buffersize * (n₁ + 1) ≤ 1 := by nlinarith
  have hblt : buffersize < 1 := by nlinarith
  rw [e₁, e₂]
  have key : (1 - buffersize - buffersize * n₂) / n₂ <
      (1 - buffersize - buffersize * n₁) / n₁ := by
    rw [div_lt_div_iff₀ h₂ h₁]
    nlinarith [mul_pos (sub_pos.mpr h₁₂) (sub_pos.mpr hblt)]
  have hhalf : (1 - buffersize - buffersize * n₂) / n₂ / 2 <
      (1 - buffersize - buffersize * n₁) / n₁ / 2 := by linarith
  exact mul_lt_mul_of_pos_right hhalf hs

/-- C6 witness: with buffer `1/20`, scale `1`, the value at `n = 1`
(which is `9/20`) strictly exceeds the value at `n = 2` (which is
`17/80`). -/
theorem determine_max_radius_strict_anti_w :
    determine_max_radius (1/20) 1 1 = DMRResult.ok (9/20) ∧
    determine_max_radius (1/20) 2 1 = DMRResult.ok (17/80) ∧
    (9/20 : ℚ) > 17/80 := by
  refine ⟨by norm_num [determine_max_radius], by norm_num [determine_max_radius], ?_⟩
  exact determine_max_radius_strict_anti (1/20) 1 2 1 (9/20) (17/80)
    (by norm_num) (by norm_num) (by norm_num)
    (by norm_num [determine_max_radius]) (by norm_num [determine_max_radius])

/-- The Euclidean distance between the centres of two circles, as the
source computes it with `math.sqrt`. -/
noncomputable def realDist (c1 c2 : Ellipse) : ℝ :=
  Real.sqrt (((c1.centre.1 - c2.centre.1 : ℚ) : ℝ) ^ 2 +
             ((c1.centre.2 - c2.centre.2 : ℚ) : ℝ) ^ 2)

/-- Bridge between the real `sqrt` comparison the source performs and the
rational comparison the embedding performs. -/
theorem dist_le_sum_iff (c1 c2 : Ellipse) :
    realDist c1 c2 ≤ (Circle.radius c1 : ℝ) + (Circle.radius c2 : ℝ) ↔
      (0 ≤ Circle.radius c1 + Circle.radius c2 ∧
       (c1.centre.1 - c2.centre.1) ^ 2 + (c1.centre.2 - c2.centre.2) ^ 2 ≤
         (Circle.radius c1 + Circle.radius c2) ^ 2) := by
  rw [realDist, show (Circle.radius c1 : ℝ) + (Circle.radius c2 : ℝ) =
    ((Circle.radius c1 + Circle.radius c2 : ℚ) : ℝ) from by push_cast; ring,
    Real.sqrt_le_iff]
  constructor
  · rintro ⟨h1, h2⟩
    exact ⟨by exact_mod_cast h1, by exact_mod_cast h2⟩
  · rintro ⟨h1, h2⟩
    exact ⟨by exact_mod_cast h1, by exact_mod_cast h2⟩

/-- Head-step characterisation of the `check_intersect` loop. -/
theorem check_intersect_cons_iff (c1 c2 : Ellipse) (rest : List Ellipse) :
    check_intersect c1 (c2 :: rest) = true ↔
      ((0 ≤ Circle.radius c1 + Circle.radius c2 ∧
        (c1.centre.1 - c2.centre.1) ^ 2 + (c1.centre.2 - c2.centre.2) ^ 2 ≤
          (Circle.radius c1 + Circle.radius c2) ^ 2) ∨
       check_intersect c1 rest = true) := by
  by_cases hA : Circle.radius c1 + Circle.radius c2 < 0 ∨
      (Circle.radius c1 + Circle.radius c2) ^ 2 <
        (c1.centre.1 - c2.centre.1) ^ 2 + (c1.centre.2 - c2.centre.2) ^ 2
  · have hstep : check_intersect c1 (c2 :: rest) = check_intersect c1 rest := by
      simp only [check_intersect]
      rw [if_pos hA]
    rw [hstep]
    have hnc : ¬ (0 ≤ Circle.radius c1 + Circle.radius c2 ∧
        (c1.centre.1 - c2.centre.1) ^ 2 + (c1.centre.2 - c2.centre.2) ^ 2 ≤
          (Circle.radius c1 + Circle.radius c2) ^ 2) := by
      rintro ⟨h1, h2⟩
      rcases hA with h | h
      · exact absurd h1 (not_le.mpr h)
      · exact absurd h2 (not_le.mpr h)
    tauto
  · have hstep : check_intersect c1 (c2 :: rest) = true := by
      simp only [check_intersect]
      rw [if_neg hA]
      split_ifs <;> rfl
    rw [hstep]
    push_neg at hA
    simp [hA.1, hA.2]

/-- C2: `check_intersect` is true iff some circle in the list is at
Euclidean centre distance at most the sum of the radii (boundary
included); it returns true as soon as the head of the remaining list
collides, and false exactly when no circle in the list collides. -/
theorem check_intersect_spec (c1 : Ellipse) (cs : List Ellipse) :
    (check_intersect c1 cs = true ↔
      ∃ c2 ∈ cs, realDist c1 c2 ≤ (Circle.radius c1 : ℝ) + (Circle.radius c2 : ℝ)) ∧
    (∀ c2 rest, realDist c1 c2 ≤ (Circle.radius c1 : ℝ) + (Circle.radius c2 : ℝ) →
      check_intersect c1 (c2 :: rest) = true) ∧
    (check_intersect c1 cs = false ↔
      ∀ c2 ∈ cs, ¬ realDist c1 c2 ≤ (Circle.radius c1 : ℝ) + (Circle.radius c2 : ℝ)) := by
  have main : ∀ l : List Ellipse, check_intersect c1 l = true ↔
      ∃ c2 ∈ l, realDist c1 c2 ≤ (Circle.radius c1 : ℝ) + (Circle.radius c2 : ℝ) := by
    intro l
    induction l with
    | nil => simp [check_intersect]
    | cons hd tl ih =>
      rw [check_intersect_cons_iff, ih, ← dist_le_sum_iff]
      simp only [List.mem_cons]
      constructor
      · rintro (h | ⟨c2, hc2, h⟩)
        · exact ⟨hd, Or.inl rfl, h⟩
        · exact ⟨c2, Or.inr hc2, h⟩
      · rintro ⟨c2, hc2 | hc2, h⟩
        · exact Or.inl (hc2 ▸ h)
        · exact Or.inr ⟨c2, hc2, h⟩
  refine ⟨main cs, ?_, ?_⟩
  · intro c2 rest h
    rw [check_intersect_cons_iff, ← dist_le_sum_iff]
    exact Or.inl h
  · rw [← Bool.not_eq_true, main cs]
    push_neg
    simp

/-- C2 witness: two circles both centred at `(0.3, 0.3)` with radius
`0.1` have centre distance `0 ≤ 0.2`, so `check_intersect` on the
singleton list returns true. -/
theorem check_intersect_spec_w :
    check_intersect (Circle.make "m" (3/10, 3/10) (1/10))
      [Circle.make "m" (3/10, 3/10) (1/10)] = true := by
  refine (check_intersect_spec (Circle.make "m" (3/10, 3/10) (1/10)) []).2.1
    (Circle.make "m" (3/10, 3/10) (1/10)) [] ?_
  unfold realDist Circle.make Circle.radius
  norm_num

/-- C4: `is_location_inside_square` is true exactly when the circle,
radius included, stays at least `buffersize` away from every side of the
unit square. -/
theorem is_location_inside_square_iff (c : Ellipse) (buffersize : ℚ) :
    is_location_inside_square c buffersize = true ↔
      (buffersize ≤ c.centre.1 - Circle.radius c ∧
       c.centre.1 + Circle.radius c ≤ 1 - buffersize ∧
       buffersize ≤ c.centre.2 - Circle.radius c ∧
       c.centre.2 + Circle.radius c ≤ 1 - buffersize) := by
  unfold is_location_inside_square
  split_ifs with h1 h2
  · simp only [Bool.false_eq_true, false_iff]
    rintro ⟨ha, hb, hc, hd⟩
    rcases h1 with h | h <;> linarith
  · simp only [Bool.false_eq_true, false_iff]
    rintro ⟨ha, hb, hc, hd⟩
    rcases h2 with h | h <;> linarith
  · push_neg at h1 h2
    simp only [true_iff]
    exact ⟨h1.1, h1.2, h2.1, h2.2⟩

/-- C5 counterexample: with `max_radius = 0` the random branch at sample
`u = 0` returns `0.01`, which does not lie in `[0.01, 0]` since
`0.01 ≤ 0` is false. -/
theorem determine_radius_claim_false :
    determine_radius 0 false 0 = 1/100 ∧ ¬ ((1/100 : ℚ) ≤ 0) := by
  constructor
  · norm_num [determine_radius]
  · norm_num

/-- C5 (amended): with `equal_size = true` the result is exactly
`max_radius` for every sample; with `equal_size = false`, whenever
`max_radius ≥ 0.01` and the uniform sample lies in `[0, 1]`, the result
lies in `[0.01, max_radius]`. -/
theorem determine_radius_spec (max_radius u : ℚ) :
    determine_radius max_radius true u = max_radius ∧
    (0 ≤ u → u ≤ 1 → 1/100 ≤ max_radius →
      1/100 ≤ determine_radius max_radius false u ∧
      determine_radius max_radius false u ≤ max_radius) := by
  refine ⟨rfl, ?_⟩
  intro hu0 hu1 hm
  unfold determine_radius
  simp only [Bool.false_eq_true, if_false]
  constructor <;> nlinarith

/-- C5 witness: at `max_radius = 1/2`, sample `1/2`, the random branch
result lies in `[0.01, 1/2]`. -/
theorem determine_radius_spec_w :
    1/100 ≤ determine_radius (1/2) false (1/2) ∧
    determine_radius (1/2) false (1/2) ≤ 1/2 :=
  (determine_radius_spec (1/2) (1/2)).2 (by norm_num) (by norm_num) (by norm_num)

/-- C9: constructing a circle stores the radius in both axes, the
`radius` getter reads it back, and the `radius` setter rewrites both
axes, so `short_axis = long_axis = radius` holds after construction and
after every radius assignment. -/
theorem circle_axes_invariant (material : String) (centre : ℚ × ℚ)
    (radius value : ℚ) (c : Ellipse) :
    ((Circle.make material centre radius).short_axis = radius ∧
     (Circle.make material centre radius).long_axis = radius ∧
     Circle.radius (Circle.make material centre radius) = radius) ∧
    ((Circle.setRadius c value).short_axis = value ∧
     (Circle.setRadius c value).long_axis = value ∧
     Circle.radius (Circle.setRadius c value) = value) :=
  ⟨⟨rfl, rfl, rfl⟩, ⟨rfl, rfl, rfl⟩⟩

/-- C10: `perimeter_location` returns `(x + r, x)` with the centre's x
coordinate in the second slot, and that point lies on the circle's
perimeter exactly when `(x - y)^2 = 0`, i.e. exactly when the centre has
equal coordinates. -/
theorem perimeter_location_spec (c : Ellipse) :
    perimeter_location c = (c.centre.1 + Circle.radius c, c.centre.1) ∧
    (onPerimeter c (perimeter_location c) ↔ (c.centre.1 - c.centre.2) ^ 2 = 0) ∧
    ((c.centre.1 - c.centre.2) ^ 2 = 0 ↔ c.centre.1 = c.centre.2) := by
  refine ⟨rfl, ?_, ?_⟩
  · unfold onPerimeter perimeter_location
    have hsimp : ((c.centre.1 + Circle.radius c, c.centre.1).1 - c.centre.1) ^ 2 +
        ((c.centre.1 + Circle.radius c, c.centre.1).2 - c.centre.2) ^ 2
        = Circle.radius c ^ 2 + (c.centre.1 - c.centre.2) ^ 2 := by
      simp only [Prod.fst, Prod.snd]
      ring
    rw [hsimp]
    constructor
    · intro h
      linarith
    · intro h
      linarith
  · exact (pow_eq_zero_iff (two_ne_zero)).trans sub_eq_zero

/-- The constructor-capability instances: one nested `Factory` class per
concrete shape class of the module. -/
inductive FactoryInst where
  | circleFactory : FactoryInst
  | ellipseFactory : FactoryInst
  | rectangleFactory : FactoryInst
deriving DecidableEq, Repr

/-- Characters allowed inside a Python name. -/
def pyIdentChar (c : Char) : Bool := c.isAlphanum || c = '_'

/-- Kind strings shaped like a single Python name: a letter or an
underscore followed by name characters.  For such a kind the expression
`shape + '.Factory()'` is an attribute access on one name, so evaluating
it either finds a module global with a nested `Factory` (only the three
shape classes have one) or raises: `NameError` for an unbound name,
`AttributeError` for a global without a nested `Factory`, `SyntaxError`
for keyword-shaped names. -/
def isIdentKind (s : String) : Bool :=
  match s.data with
  | [] => false
  | c :: cs => (c.isAlpha || c = '_') && cs.all pyIdentChar

/-- Drops the trailing spaces of the kind string, which Python's
tokenizer skips inside the concatenated expression: for example
`eval("Circle .Factory()")` resolves the `Circle` class. -/
def trimTrailingSpaces (s : String) : String :=
  ⟨(s.data.reverse.dropWhile (fun c => c = ' ')).reverse⟩

/-- Outcome of `eval(shape + '.Factory()')`.  `factory f`: the
expression evaluated to the factory instance `f`.  `raises`: the
evaluation raised (the failure the spec labels `UnknownShapeKind`).
`unmodelled`: `eval` executes the kind as an arbitrary Python
expression, and outside the fragment modelled here — a single name with
optional trailing spaces — the outcome is whatever that expression does
(for example the kind `"Circle and Ellipse"` evaluates
`Circle and Ellipse.Factory()` and produces an Ellipse factory); the
embedding keeps that region explicit instead of forcing it to a verdict
the program does not have. -/
inductive EvalResult where
  | factory : FactoryInst → EvalResult
  | raises : EvalResult
  | unmodelled : EvalResult
deriving DecidableEq, Repr

/-- `eval(shape + '.Factory()')` on the modelled fragment: after the
tokenizer skips trailing spaces, each of the three shape-class names
produces its factory, every other single name raises, and everything
else is an arbitrary expression left unmodelled. -/
def evalFactory (shape : String) : EvalResult :=
  if trimTrailingSpaces shape = "Circle" then EvalResult.factory FactoryInst.circleFactory
  else if trimTrailingSpaces shape = "Ellipse" then EvalResult.factory FactoryInst.ellipseFactory
  else if trimTrailingSpaces shape = "Rectangle" then EvalResult.factory FactoryInst.rectangleFactory
  else if isIdentKind (trimTrailingSpaces shape) then EvalResult.raises
  else EvalResult.unmodelled

/-- Lookup in the `ShapeFactory.factories` dict (`shape in factories` /
`factories[shape]`), the dict being keyed by the kind string. -/
def lookupFactory : List (String × FactoryInst) → String → Option FactoryInst
  | [], _ => none
  | (k, f) :: rest, shape => if k = shape then some f else lookupFactory rest shape

/-- Result of `ShapeFactory.createShape`: the factory instance used
together with the updated registry, an exception escaping from the
`eval`, or the unmodelled arbitrary-expression region of `eval`. -/
inductive CreateResult where
  | ok : FactoryInst → List (String × FactoryInst) → CreateResult
  | error : CreateResult
  | unmodelled : CreateResult
deriving DecidableEq, Repr

/-- `ShapeFactory.createShape(shape, **kwargs)`: if `shape` is not a key
of `factories`, evaluate `shape + '.Factory()'` and store the result
under `shape`; then return what `factories[shape].create(**kwargs)`
builds.  The embedding returns the factory instance used (its `create`
forwards the kwargs to the shape constructor) together with the updated
registry. -/
def createShape (shape : String) (factories : List (String × FactoryInst)) :
    CreateResult :=
  match lookupFactory factories shape with
  | some f => CreateResult.ok f factories
  | none =>
    match evalFactory shape with
    | EvalResult.factory f => CreateResult.ok f ((shape, f) :: factories)
    | EvalResult.raises => CreateResult.error
    | EvalResult.unmodelled => CreateResult.unmodelled

/-- A registry is well formed when every cached kind evaluated to a
factory; the empty initial registry is well formed, and `createShape`
only ever caches kinds whose evaluation produced a factory. -/
def FactoriesWF (factories : List (String × FactoryInst)) : Prop :=
  ∀ k f, (k, f) ∈ factories → ∃ g, evalFactory k = EvalResult.factory g

/-- Name characters are not spaces. -/
theorem pyIdentChar_ne_space (c : Char) (h : pyIdentChar c = true) : ¬ c = ' ' := by
  intro he
  subst he
  exact absurd h (by decide)

/-- Dropping while a predicate holds removes nothing from a list none of
whose elements satisfy it. -/
theorem dropWhile_eq_self_of_none (p : Char → Bool) (l : List Char)
    (h : ∀ c ∈ l, p c = false) : l.dropWhile p = l := by
  cases l with
  | nil => rfl
  | cons a t => simp [List.dropWhile_cons, h a (List.mem_cons_self a t)]

/-- A kind shaped like a single name has no trailing spaces to trim. -/
theorem trimTrailingSpaces_of_ident (s : String) (h : isIdentKind s = true) :
    trimTrailingSpaces s = s := by
  have hall : ∀ c ∈ s.data.reverse, (fun c => decide (c = ' ')) c = false := by
    intro c hc
    rw [List.mem_reverse] at hc
    unfold isIdentKind at h
    cases hd : s.data with
    | nil => rw [hd] at h; exact absurd h (by simp)
    | cons c0 cs =>
      rw [hd] at h hc
      rw [Bool.and_eq_true] at h
      obtain ⟨h1, h2⟩ := h
      rcases List.mem_cons.mp hc with hc0 | hcs
      · subst hc0
        refine decide_eq_false ?_
        intro he
        rw [he] at h1
        exact absurd h1 (by decide)
      · exact decide_eq_false
          (pyIdentChar_ne_space c (List.all_eq_true.mp h2 c hcs))
  unfold trimTrailingSpaces
  rw [dropWhile_eq_self_of_none _ _ hall, List.reverse_reverse]

/-- In a well-formed registry a kind whose evaluation raises is never
cached. -/
theorem lookupFactory_eq_none (factories : List (String × FactoryInst))
    (shape : String) (hwf : FactoriesWF factories)
    (hres : evalFactory shape = EvalResult.raises) :
    lookupFactory factories shape = none := by
  induction factories with
  | nil => rfl
  | cons hd tl ih =>
    obtain ⟨k, f⟩ := hd
    unfold lookupFactory
    have hk : ¬ k = shape := by
      intro heq
      obtain ⟨g, hg⟩ := hwf k f (List.mem_cons_self _ _)
      rw [heq, hres] at hg
      exact absurd hg (by simp)
    rw [if_neg hk]
    exact ih fun k2 f2 h2 => hwf k2 f2 (List.mem_cons_of_mem _ h2)

/-- C7 counterexample: the kind `"Circle "` (trailing space) lies
outside the closed enumeration, yet `createShape` does not fail on it:
`eval("Circle .Factory()")` resolves the `Circle` class, and the call
returns a Circle factory and caches it under the key `"Circle "`. -/
theorem createShape_unknown_claim_false :
    ("Circle " ≠ "Circle" ∧ "Circle " ≠ "Ellipse" ∧ "Circle " ≠ "Rectangle") ∧
    createShape "Circle " [] =
      CreateResult.ok FactoryInst.circleFactory
        [("Circle ", FactoryInst.circleFactory)] := by
  constructor
  · exact ⟨by decide, by decide, by decide⟩
  · rfl

/-- C7 (amended): a kind outside the closed enumeration is not
guaranteed to fail — `eval` interprets the kind as an expression, so
for example the kind `"Circle "` resolves to the Circle factory — but
every kind shaped like a single name other than the three shape-class
names does fail with the unknown-kind error on a well-formed registry.
For a recognized kind the factory is resolved lazily on first use and
stored under the kind key, and after any successful call, calling again
with the same kind returns the same cached factory instance and leaves
the registry unchanged. -/
theorem createShape_spec (shape : String) (factories : List (String × FactoryInst)) :
    (FactoriesWF factories → isIdentKind shape = true →
      shape ≠ "Circle" → shape ≠ "Ellipse" → shape ≠ "Rectangle" →
      createShape shape factories = CreateResult.error) ∧
    (∀ f, lookupFactory factories shape = none →
      evalFactory shape = EvalResult.factory f →
      createShape shape factories = CreateResult.ok f ((shape, f) :: factories)) ∧
    (∀ f fs2, createShape shape factories = CreateResult.ok f fs2 →
      createShape shape fs2 = CreateResult.ok f fs2) := by
  refine ⟨?_, ?_, ?_⟩
  · intro hwf hid h1 h2 h3
    have htrim := trimTrailingSpaces_of_ident shape hid
    have hres : evalFactory shape = EvalResult.raises := by
      unfold evalFactory
      rw [htrim, if_neg h1, if_neg h2, if_neg h3, if_pos hid]
    unfold createShape
    rw [lookupFactory_eq_none factories shape hwf hres, hres]
  · intro f hl hres
    unfold createShape
    rw [hl, hres]
  · intro f fs2 h
    unfold createShape at h ⊢
    cases hl : lookupFactory factories shape with
    | some f0 =>
      rw [hl] at h
      injection h with hf hfs
      subst hf; subst hfs
      rw [hl]
    | none =>
      rw [hl] at h
      cases hres : evalFactory shape with
      | factory f0 =>
        rw [hres] at h
        injection h with hf hfs
        subst hf; subst hfs
        have hlk : lookupFactory ((shape, f0) :: factories) shape = some f0 := by
          unfold lookupFactory
          rw [if_pos rfl]
        rw [hlk]
      | raises =>
        rw [hres] at h
        exact absurd h (by simp)
      | unmodelled =>
        rw [hres] at h
        exact absurd h (by simp)

/-- C7 witness: the single-name kind `"Square"` fails on the empty
registry; the first use of the Circle kind resolves and caches its
factory; the second use returns the cached instance and leaves the
registry unchanged. -/
theorem createShape_spec_w :
    createShape "Square" [] = CreateResult.error ∧
    createShape "Circle" [] =
      CreateResult.ok FactoryInst.circleFactory
        [("Circle", FactoryInst.circleFactory)] ∧
    createShape "Circle" [("Circle", FactoryInst.circleFactory)] =
      CreateResult.ok FactoryInst.circleFactory
        [("Circle", FactoryInst.circleFactory)] :=
  ⟨(createShape_spec "Square" []).1 (fun _ _ h => absurd h (List.not_mem_nil _))
     (by decide) (by decide) (by decide) (by decide),
   (createShape_spec "Circle" []).2.1 FactoryInst.circleFactory rfl (by decide),
   (createShape_spec "Circle" []).2.2 FactoryInst.circleFactory
     [("Circle", FactoryInst.circleFactory)]
     ((createShape_spec "Circle" []).2.1 FactoryInst.circleFactory rfl (by decide))⟩

/-- `Ellipse.AspectRatio`: `short_axis / long_axis`.  Python float
division raises `ZeroDivisionError` when `long_axis` is zero, so the
result is `none` in that case. -/
def Ellipse.AspectRatio (e : Ellipse) : Option ℚ :=
  if e.long_axis = 0 then none else some (e.short_axis / e.long_axis)

/-- `Ellipse.Area`: `math.pi * short_axis * long_axis`, with `math.pi`
idealised as the real number `π`. -/
noncomputable def Ellipse.Area (e : Ellipse) : ℝ :=
  Real.pi * (e.short_axis : ℝ) * (e.long_axis : ℝ)

/-- `Ellipse.__str__`: the columns centre x, centre y, long axis, short
axis, aspect ratio, area, angle, when `AspectRatio` is defined; the
`ZeroDivisionError` of a zero long axis propagates as `none`.
Number-to-text rendering of floats is outside the embedding, so a line
is represented by its column values. -/
noncomputable def Ellipse.strRow (e : Ellipse) : Option (List ℝ) :=
  match e.AspectRatio with
  | none => none
  | some ar => some [(e.centre.1 : ℝ), (e.centre.2 : ℝ), (e.long_axis : ℝ),
      (e.short_axis : ℝ), (ar : ℝ), e.Area, (e.angle : ℝ)]

/-- The column values `Ellipse.__str__` produces for a shape whose long
axis is nonzero; used to state the export theorems. -/
noncomputable def Ellipse.strColumns (e : Ellipse) : List ℝ :=
  [(e.centre.1 : ℝ), (e.centre.2 : ℝ), (e.long_axis : ℝ), (e.short_axis : ℝ),
   ((e.short_axis / e.long_axis : ℚ) : ℝ), e.Area, (e.angle : ℝ)]

/-- The columns of the line `Circle.__str__` prints: centre x, centre y,
radius, area.  It does not call `AspectRatio`, so it is total. -/
noncomputable def Circle.strRow (c : Ellipse) : List ℝ :=
  [(c.centre.1 : ℝ), (c.centre.2 : ℝ), (Circle.radius c : ℝ), c.Area]

/-- The fixed container header block both exporters emit first. -/
def matrixHeader : String :=
  "**Matrix:\n**Bottom left corner X, Bottom left corner Y, height, width\n0, 0, 1, 1\n\n"

/-- The circle-report column header block. -/
def circleHeader : String :=
  "**Circle distribution\n**Centre X, centre Y, radius, area\n"

/-- The ellipse-report column header block. -/
def ellipseHeader : String :=
  "**Ellipse distribution\n**Centre X, centre Y, long axis, short axis, aspect ratio, area, orientation(rad)\n"

/-- An export report: the concatenated header text followed by the
per-shape lines, one line kept as its list of column values. -/
structure Report where
  header : String
  rows : List (List ℝ)

/-- The `for shape in shapes: output_str += '\x7b0\x7d\n'.format(shape)`
loop of `Circle.ExportInclusions`, appending one line per shape in
iteration order. -/
def exportRows (row : Ellipse → List ℝ) : List Ellipse → List (List ℝ)
  | [] => []
  | s :: rest => row s :: exportRows row rest

/-- The same loop in `Ellipse.ExportInclusions`: each `__str__` line can
raise, and the exception of an offending shape propagates out of the
whole export. -/
noncomputable def exportRowsE : List Ellipse → Option (List (List ℝ))
  | [] => some []
  | s :: rest =>
    match Ellipse.strRow s with
    | none => none
    | some r =>
      match exportRowsE rest with
      | none => none
      | some rs => some (r :: rs)

/-- `Circle.ExportInclusions(shapes)`: the container header block, the
circle column header, then one `Circle.__str__` line per shape; total,
since the circle line involves no division. -/
noncomputable def Circle.ExportInclusions (shapes : List Ellipse) : Report :=
  { header := matrixHeader ++ circleHeader,
    rows := exportRows Circle.strRow shapes }

/-- `Ellipse.ExportInclusions(shapes)`: the container header block, the
ellipse column header, then one `Ellipse.__str__` line per shape;
`none` when some shape's line raises `ZeroDivisionError`. -/
noncomputable def Ellipse.ExportInclusions (shapes : List Ellipse) : Option Report :=
  match exportRowsE shapes with
  | none => none
  | some rows => some { header := matrixHeader ++ ellipseHeader, rows := rows }

/-- The circle export loop emits exactly the per-shape lines in input
order. -/
theorem exportRows_eq_map (row : Ellipse → List ℝ) (l : List Ellipse) :
    exportRows row l = l.map row := by
  induction l with
  | nil => rfl
  | cons h t ih => simp [exportRows, ih]

/-- An ellipse line with nonzero long axis is its column values. -/
theorem strRow_of_nonzero (e : Ellipse) (h : e.long_axis ≠ 0) :
    Ellipse.strRow e = some (Ellipse.strColumns e) := by
  unfold Ellipse.strRow Ellipse.AspectRatio Ellipse.strColumns
  rw [if_neg h]

/-- An ellipse line with zero long axis raises. -/
theorem strRow_of_zero (e : Ellipse) (h : e.long_axis = 0) :
    Ellipse.strRow e = none := by
  unfold Ellipse.strRow Ellipse.AspectRatio
  rw [if_pos h]

/-- When every shape has a nonzero long axis, the ellipse export loop
emits exactly the per-shape lines in input order. -/
theorem exportRowsE_of_nonzero (l : List Ellipse)
    (h : ∀ e ∈ l, e.long_axis ≠ 0) :
    exportRowsE l = some (l.map Ellipse.strColumns) := by
  induction l with
  | nil => rfl
  | cons hd tl ih =>
    unfold exportRowsE
    rw [strRow_of_nonzero hd (h hd (List.mem_cons_self hd tl)),
      ih (fun e he => h e (List.mem_cons_of_mem hd he))]
    rfl

/-- When some shape has a zero long axis, the ellipse export loop
raises. -/
theorem exportRowsE_of_zero (l : List Ellipse)
    (h : ∃ e ∈ l, e.long_axis = 0) :
    exportRowsE l = none := by
  induction l with
  | nil =>
    obtain ⟨e, he, _⟩ := h
    exact absurd he (List.not_mem_nil e)
  | cons hd tl ih =>
    obtain ⟨e, he, hz⟩ := h
    unfold exportRowsE
    rcases List.mem_cons.mp he with heq | hmem
    · rw [strRow_of_zero hd (heq ▸ hz)]
    · cases hs : Ellipse.strRow hd with
      | none => rfl
      | some r => rw [ih ⟨e, hmem, hz⟩]

/-- C8 counterexample: exporting a collection containing one
default-geometry ellipse (both axes zero, the constructor default)
raises: `__str__` calls `AspectRatio`, whose division by the zero long
axis raises `ZeroDivisionError`, so it is false that `ExportInclusions`
raises no error on every shape collection. -/
theorem ExportInclusions_claim_false :
    Ellipse.ExportInclusions
      [{ material := "m", centre := (0, 0), short_axis := 0, long_axis := 0,
         angle := 0 }] = none := by
  unfold Ellipse.ExportInclusions
  rw [exportRowsE_of_zero
    [{ material := "m", centre := (0, 0), short_axis := 0, long_axis := 0,
       angle := 0 }]
    ⟨{ material := "m", centre := (0, 0), short_axis := 0, long_axis := 0,
       angle := 0 }, List.mem_singleton_self _, rfl⟩]

/-- C8 (amended): the circle exporter returns the fixed header block
followed by exactly one line per shape in input order with the circle
columns, and raises nothing on any collection; the ellipse exporter
returns the fixed header block followed by exactly one line per shape in
input order with the ellipse columns whenever every shape has a nonzero
long axis, but raises (`ZeroDivisionError` from `AspectRatio`) whenever
some shape has a zero long axis; both exporters give the header-only
report on the empty collection. -/
theorem ExportInclusions_spec (shapes : List Ellipse) :
    ((Circle.ExportInclusions shapes).header = matrixHeader ++ circleHeader ∧
     (Circle.ExportInclusions shapes).rows = shapes.map Circle.strRow ∧
     (Circle.ExportInclusions shapes).rows.length = shapes.length ∧
     (Circle.ExportInclusions ([] : List Ellipse)).rows = []) ∧
    ((∀ e ∈ shapes, e.long_axis ≠ 0) →
      Ellipse.ExportInclusions shapes =
        some { header := matrixHeader ++ ellipseHeader,
               rows := shapes.map Ellipse.strColumns }) ∧
    ((∃ e ∈ shapes, e.long_axis = 0) → Ellipse.ExportInclusions shapes = none) ∧
    (Ellipse.ExportInclusions ([] : List Ellipse) =
      some { header := matrixHeader ++ ellipseHeader, rows := [] }) ∧
    (shapes.map Ellipse.strColumns).length = shapes.length := by
  refine ⟨⟨rfl, ?_, ?_, rfl⟩, ?_, ?_, rfl, ?_⟩
  · exact exportRows_eq_map Circle.strRow shapes
  · rw [show (Circle.ExportInclusions shapes).rows = exportRows Circle.strRow shapes from rfl,
      exportRows_eq_map]
    exact List.length_map shapes Circle.strRow
  · intro h
    unfold Ellipse.ExportInclusions
    rw [exportRowsE_of_nonzero shapes h]
  · intro h
    unfold Ellipse.ExportInclusions
    rw [exportRowsE_of_zero shapes h]
  · exact List.length_map shapes Ellipse.strColumns

/-- C8 witness: a singleton collection whose ellipse has long axis `1/2`
exports successfully to the header block plus its single line. -/
theorem ExportInclusions_spec_w :
    Ellipse.ExportInclusions
      [{ material := "m", centre := (1/2, 1/2), short_axis := 1/4,
         long_axis := 1/2, angle := 0 }] =
      some { header := matrixHeader ++ ellipseHeader,
             rows := List.map Ellipse.strColumns
               [({ material := "m", centre := (1/2, 1/2), short_axis := 1/4,
                   long_axis := 1/2, angle := 0 } : Ellipse)] } :=
  (ExportInclusions_spec
    [{ material := "m", centre := (1/2, 1/2), short_axis := 1/4,
       long_axis := 1/2, angle := 0 }]).2.1 (by
    intro e he
    rw [List.mem_singleton] at he
    subst he
    show (1/2 : ℚ) ≠ 0
    norm_num)
